import Mathlib

/-!
Shallow embedding of the eco/iodat data-packaging core.

The embedded code is `src/iodat/packager.py` (class `Packager`: methods
`build_package`, `update_package`, `create_node`, `_parse_metadata`,
`_validate_metadata`, `parse_annotation`, `parse_view`) and the reader
constructor `DataPackage.__init__` from `src/eco/entities/datapackage.py`.

Python dicts are modelled as insertion-ordered association lists, JSON/YAML
values as the inductive `J`, the filesystem as explicit association lists from
path to (already parsed) content, and the effect of each operation as an
explicit trace of write operations paired with an `Except` result.  UUID
generation and the current timestamp are passed in as arguments
(`nodeUuid`, `now`), since the operations use each exactly once.
-/

namespace Eco

/-- JSON/YAML-like values: the shape of the data held in the Python dicts and
lists that the packager and the reader manipulate.  Objects are
insertion-ordered key/value lists, as Python dicts are. -/
inductive J where
  | null : J
  | bool (b : Bool) : J
  | num (n : Int) : J
  | str (s : String) : J
  | arr (elems : List J) : J
  | obj (fields : List (String × J)) : J
deriving Repr

/-- Lookup on an insertion-ordered association list: Python `d[k]` / `k in d`
(first binding wins, as keys in a Python dict are unique). -/
def getKey (k : String) : List (String × α) → Option α
  | [] => none
  | (k2, v) :: rest => if k2 = k then some v else getKey k rest

/-- Python `k in d`. -/
def hasKey (k : String) (d : List (String × α)) : Bool :=
  (getKey k d).isSome

/-- Python dict assignment `d[k] = v`: replaces the binding in place when the
key already exists (keys are unique in a Python dict, so replacing the first
occurrence is the dict semantics), otherwise appends a new binding at the
end. -/
def dictInsert : List (String × α) → String → α → List (String × α)
  | [], k, v => [(k, v)]
  | (k2, v2) :: rest, k, v =>
      if k2 = k then (k, v) :: rest else (k2, v2) :: dictInsert rest k v

/-- Whether a `J` value is a Python dict (`isinstance(mdata, dict)`). -/
def J.isObj : J → Bool
  | .obj _ => true
  | _ => false

/-- An annotation argument: either a Python `str` or a `pathlib.Path`
(both carry the path/text as a string; only the runtime type differs,
which `parse_annotation` inspects with `isinstance`). -/
inductive AnnotArg where
  | str (s : String) : AnnotArg
  | path (p : String) : AnnotArg
deriving Repr, DecidableEq

/-- A view argument: a `str`, a `pathlib.Path`, or a dict. -/
inductive ViewArg where
  | str (s : String) : ViewArg
  | path (p : String) : ViewArg
  | dict (j : J) : ViewArg
deriving Repr

/-- The value `parse_view` stores for one view: either the parsed contents of
an existing JSON file, or the argument itself used verbatim. -/
inductive ViewVal where
  | fromFile (j : J) : ViewVal
  | literal (v : ViewArg) : ViewVal
deriving Repr

/-- A metadata argument to `build_package`/`update_package`: a `str` path, a
`pathlib.Path`, or a dict-like value. -/
inductive MetaArg where
  | str (p : String) : MetaArg
  | path (p : String) : MetaArg
  | dict (j : J) : MetaArg
deriving Repr

/-- The error outcomes of the packager operations.  Each constructor embeds
one `raise`/abort site of `src/iodat/packager.py`:
`fileNotFound` is the `FileNotFoundError` of `_parse_metadata`;
`metadataNotDict` its `assert isinstance(mdata, dict)`;
`unrecognizedProfile` the `Exception("Unrecognized profile specified!")`;
`metadataValidationFailed` the validation-failure abort of
`_validate_metadata` (which prints `validator.errors` and exits with a
non-zero status), carrying the printed field-error list;
`invalidAnnotationPath` the `Exception` raised by `parse_annotation` for a
`pathlib.Path` that names no existing file;
`invalidExistingPath` the `Exception` raised by `update_package` when the
`existing` path does not exist. -/
inductive PkgError where
  | fileNotFound (p : String) : PkgError
  | metadataNotDict : PkgError
  | unrecognizedProfile : PkgError
  | metadataValidationFailed (errors : List (String × String)) : PkgError
  | invalidAnnotationPath (p : String) : PkgError
  | invalidExistingPath (p : String) : PkgError
deriving Repr

/-- Result of validating a metadata document against a named profile schema:
either valid, or a list of field-path/error-message pairs. -/
inductive VResult where
  | valid : VResult
  | invalid (errors : List (String × String)) : VResult
deriving Repr

/-- Modelled from the spec: the SchemaValidator capability
(`check(document, profileName) -> Valid | Invalid(fieldErrors)`).  The profile
schema files (`iodat/profiles/*.yml`) and the cerberus `Validator` used by
`Packager._validate_metadata` are not part of the sources under `src/`, so
schema lookup and checking are modelled as this injected function, exactly as
the spec describes the external contract. -/
def SchemaCheck : Type :=
  J → String → VResult

/-- Modelled from the spec: a concrete profile schema for `"biodat"` that
requires the field `species` (the spec's example profile), reporting a
missing-field error for it.  Used only as a concrete instance of
`SchemaCheck` in witnesses. -/
def biodatCheck : SchemaCheck := fun doc _profile =>
  match doc with
  | .obj fields =>
      if hasKey "species" fields then .valid
      else .invalid [("species", "required field")]
  | _ => .invalid [("species", "required field")]

/-- One edge of the provenance DAG: the dict
`{"source": ..., "target": ...}` appended by `update_package`. -/
structure Edge where
  source : String
  target : String
deriving Repr, DecidableEq

/-- One node of the provenance DAG: the dict assembled by
`Packager.create_node`, plus the `metadata` key that the callers assign
immediately afterwards (`node["metadata"] = node_mdata`). -/
structure StageNode where
  name : String
  action : String
  time : String
  version : String
  annot : List String
  views : List ViewVal
  metadata : J
deriving Repr

/-- The `"io-dag"` section of a datapackage document, split by key: the
`uuid` frontier pointer, the `nodes` dict, the `edges` list, and `rest`, the
bindings of the section under any other key (none is written by
`build_package`, but `update_package` copies the whole section of the loaded
document and touches only `uuid`, `nodes` and `edges`, so other keys, such as
a `metadata` block holding dataset identity, are carried through `rest`). -/
structure IoDag where
  uuid : String
  nodes : List (String × StageNode)
  edges : List Edge
  rest : List (String × J)
deriving Repr

/-- The environment an operation runs in: the injected schema validator, the
filesystem (text files for annotations, parsed JSON files for views, parsed
YAML/JSON files for metadata, parsed existing datapackage files restricted to
their io-dag section, which is the only part of them `update_package` reads),
and the packager version string (`self._version`). -/
structure Env where
  check : SchemaCheck
  tfs : List (String × String)
  jfs : List (String × J)
  yfs : List (String × J)
  docs : List (String × IoDag)
  version : String

/-- Embeds `Packager.parse_annotation`: an entry naming an existing file is
replaced by that file reading in full (`os.path.exists` probes strings and
paths alike); otherwise a plain string is used verbatim, while a
`pathlib.Path` raises. -/
def parse_annotation' (E : Env) : AnnotArg → Except PkgError String
  | .str s =>
      match getKey s E.tfs with
      | some txt => .ok txt
      | none => .ok s
  | .path p =>
      match getKey p E.tfs with
      | some txt => .ok txt
      | none => .error (.invalidAnnotationPath p)

/-- Embeds `Packager.parse_view`: a string or path naming an existing file is
replaced by the parsed contents of that JSON file (`E.jfs` holds file
contents already parsed); every other entry, a dict or a string/path naming
no existing file, is used verbatim (`contents = view`).  The `Except` return
type makes failure statable; the source body never raises. -/
def parse_view (E : Env) : ViewArg → Except PkgError ViewVal
  | .str s =>
      match getKey s E.jfs with
      | some j => .ok (.fromFile j)
      | none => .ok (.literal (.str s))
  | .path p =>
      match getKey p E.jfs with
      | some j => .ok (.fromFile j)
      | none => .ok (.literal (.path p))
  | .dict j => .ok (.literal (.dict j))

/-- Embeds `Packager._parse_metadata`: a string or path argument must name an
existing file, whose YAML/JSON content (`E.yfs`, already parsed) is loaded;
then `assert isinstance(mdata, dict)` requires the result to be an object. -/
def parse_metadata (E : Env) : MetaArg → Except PkgError J
  | .str p =>
      match getKey p E.yfs with
      | none => .error (.fileNotFound p)
      | some j => if j.isObj then .ok j else .error .metadataNotDict
  | .path p =>
      match getKey p E.yfs with
      | none => .error (.fileNotFound p)
      | some j => if j.isObj then .ok j else .error .metadataNotDict
  | .dict j => if j.isObj then .ok j else .error .metadataNotDict

/-- Embeds `Packager._validate_metadata` in terms of the injected
`SchemaCheck` capability (the schema files and the cerberus validator are not
under `src/`; see `SchemaCheck`).  A failed check aborts the operation
carrying the field-error list, as the source prints `validator.errors` and
exits with a non-zero status. -/
def validate_metadata (E : Env) (mdata : J) (profile : String) : Except PkgError Unit :=
  match E.check mdata profile with
  | .valid => .ok ()
  | .invalid errors => .error (.metadataValidationFailed errors)

/-- Embeds `Packager.create_node`: assembles the node dict with producer name
`"io-python"`, the given action (the source default is `"build_package"`;
`update_package` passes `"update_package"`), the timestamp `now`, the
packager version, and the resolved annotations and views in order.  The first
resolution failure aborts, as the raised exception does. -/
def create_node (E : Env) (annotations : List AnnotArg) (views : List ViewArg)
    (now : String) (action : String) : Except PkgError StageNode :=
  match annotations.mapM (fun a => parse_annotation' E a) with
  | .error e => .error e
  | .ok annot =>
    match views.mapM (fun v => parse_view E v) with
    | .error e => .error e
    | .ok vs =>
      .ok { name := "io-python", action := action, time := now,
            version := E.version, annot := annot, views := vs,
            metadata := J.obj [] }

/-- The whole document written to `datapackage.json`: the package skeleton
returned by `frictionless.describe_package` (an opaque dict, never containing
an `"io-dag"` or `"eco"` key of its own) with the `"io-dag"` section assigned
on top of it (`pkg["io-dag"] = ...`). -/
structure PkgDoc where
  base : List (String × J)
  iodag : IoDag
deriving Repr

/-- One observable filesystem write performed by an operation:
`writeResource` is the `to_csv` of one resource, `writeMetaDirect` is
`open(os.path.join(pkg_dir, "datapackage.json"), "w")` followed by
`json.dump` (an in-place write of the final path), and `writeTemp`/`rename`
are the temporary-file write and atomic rename of the spec, which the
embedding provides so that their absence from a trace is statable. -/
inductive WriteOp where
  | writeResource (path : String) : WriteOp
  | writeMetaDirect (path : String) (doc : PkgDoc) : WriteOp
  | writeTemp (path : String) (doc : PkgDoc) : WriteOp
  | rename (src : String) (dst : String) : WriteOp
deriving Repr

/-- Whether a write operation writes the metadata document directly to its
final path. -/
def WriteOp.isDirectMetaWrite : WriteOp → Bool
  | .writeMetaDirect _ _ => true
  | _ => false

/-- Whether a write operation belongs to a temp-file-plus-rename protocol. -/
def WriteOp.isAtomicProtocolOp : WriteOp → Bool
  | .writeTemp _ _ => true
  | .rename _ _ => true
  | _ => false

/-- The `"io-dag"` section created by `build_package` (lines 97-103 of
`packager.py`): one node under the fresh uuid, an empty edge list, and the
frontier `uuid` equal to that node id. -/
def buildDag (u : String) (n : StageNode) : IoDag :=
  { uuid := u, nodes := [(u, n)], edges := [], rest := [] }

/-- The mutation `update_package` performs on the loaded `"io-dag"` section
(lines 197-205 of `packager.py`): remember the previous frontier uuid, set
`uuid` to the fresh one, assign the new node into the `nodes` dict, and
append the edge from the previous frontier to the new node.  All other keys
of the section (`rest`) are untouched. -/
def dagAppend (g : IoDag) (u : String) (n : StageNode) : IoDag :=
  { uuid := u,
    nodes := dictInsert g.nodes u n,
    edges := g.edges ++ [{ source := g.uuid, target := u }],
    rest := g.rest }

/-- Embeds `Packager.build_package`.  In source order: parse the node-level
and DAG-level metadata, validate the node metadata when a profile is given,
write each resource as a CSV, derive the package skeleton (`basePkg`, the
result of `frictionless.describe_package`), create the stage node (resolving
annotations and views), assign its `metadata` key, install the fresh
`"io-dag"` section, and write `datapackage.json` directly.  Returns the write
trace together with the result; the parsed DAG-level metadata is bound and
then never used, exactly as `dag_mdata` is in the source. -/
def build_package (E : Env) (resources : List String)
    (annotations : List AnnotArg) (views : List ViewArg)
    (node_metadata dag_metadata : MetaArg) (profile : String)
    (basePkg : List (String × J)) (nodeUuid now : String) :
    List WriteOp × Except PkgError PkgDoc :=
  match parse_metadata E node_metadata with
  | .error e => ([], .error e)
  | .ok node_mdata =>
    match parse_metadata E dag_metadata with
    | .error e => ([], .error e)
    | .ok _dag_mdata =>
      match (if profile = "" then .ok () else validate_metadata E node_mdata profile :
          Except PkgError Unit) with
      | .error e => ([], .error e)
      | .ok _ =>
        let rtrace := resources.map WriteOp.writeResource
        match create_node E annotations views now "build_package" with
        | .error e => (rtrace, .error e)
        | .ok node0 =>
          let node := { node0 with metadata := node_mdata }
          let doc : PkgDoc := { base := basePkg, iodag := buildDag nodeUuid node }
          (rtrace ++ [WriteOp.writeMetaDirect "datapackage.json" doc], .ok doc)

/-- Embeds `Packager.update_package`.  In source order: parse the node-level
metadata, validate it when a profile is given, write each resource, derive
the fresh package skeleton, create the stage node with action
`"update_package"` and assign its `metadata` key, check that `existing`
names an existing datapackage file, load that document's `"io-dag"` section,
extend it with the new node and edge, and write `datapackage.json` directly.
The `kwargs` argument is accepted and never used, as `**kwargs` is in the
source. -/
def update_package (E : Env) (existing : String) (resources : List String)
    (annotations : List AnnotArg) (views : List ViewArg)
    (metadata : MetaArg) (profile : String) (kwargs : List (String × J))
    (basePkg : List (String × J)) (nodeUuid now : String) :
    List WriteOp × Except PkgError PkgDoc :=
  match parse_metadata E metadata with
  | .error e => ([], .error e)
  | .ok node_mdata =>
    match (if profile = "" then .ok () else validate_metadata E node_mdata profile :
        Except PkgError Unit) with
    | .error e => ([], .error e)
    | .ok _ =>
      let rtrace := resources.map WriteOp.writeResource
      match create_node E annotations views now "update_package" with
      | .error e => (rtrace, .error e)
      | .ok node0 =>
        let node := { node0 with metadata := node_mdata }
        match getKey existing E.docs with
        | none => (rtrace, .error (.invalidExistingPath existing))
        | some dag0 =>
          let doc : PkgDoc := { base := basePkg, iodag := dagAppend dag0 nodeUuid node }
          (rtrace ++ [WriteOp.writeMetaDirect "datapackage.json" doc], .ok doc)

/-- The per-call arguments of one `update_package` call in a sequence of
updates on the same package directory: everything except the environment and
the persisted document, which are threaded through the sequence. -/
structure UpdStep where
  resources : List String
  annotations : List AnnotArg
  views : List ViewArg
  metadata : MetaArg
  profile : String
  kwargs : List (String × J)
  basePkg : List (String × J)
  uuid : String
  now : String

/-- One `update_package` call reading the previously persisted document `g`
(the `"io-dag"` section of the `datapackage.json` written by the preceding
call) and returning the `"io-dag"` section it persists in turn. -/
def updOnce (E : Env) (g : IoDag) (s : UpdStep) : Except PkgError IoDag :=
  match (update_package { E with docs := [("datapackage.json", g)] }
      "datapackage.json" s.resources s.annotations s.views s.metadata
      s.profile s.kwargs s.basePkg s.uuid s.now).2 with
  | .error e => .error e
  | .ok doc => .ok doc.iodag

/-- A sequence of `update_package` calls, each reading the document the
previous one wrote. -/
def updMany (E : Env) : IoDag → List UpdStep → Except PkgError IoDag
  | g, [] => .ok g
  | g, s :: rest =>
    match updOnce E g s with
    | .error e => .error e
    | .ok g2 => updMany E g2 rest

/-- The edge list of a single chain visiting the given node ids in order. -/
def chainEdges : List String → List Edge
  | [] => []
  | [_] => []
  | a :: b :: rest => { source := a, target := b } :: chainEdges (b :: rest)

/-- JSON encoding of a stored view value (what `json.dump` serializes for one
entry of `node["views"]`). -/
def ViewVal.toJ : ViewVal → J
  | .fromFile j => j
  | .literal (.dict j) => j
  | .literal (.str s) => .str s
  | .literal (.path p) => .str p

/-- JSON encoding of a stage node, with the keys `create_node` assigns. -/
def StageNode.toJ (n : StageNode) : J :=
  .obj [("name", .str n.name), ("action", .str n.action),
        ("time", .str n.time), ("version", .str n.version),
        ("annot", .arr (n.annot.map J.str)),
        ("views", .arr (n.views.map ViewVal.toJ)),
        ("metadata", n.metadata)]

/-- JSON encoding of the `"io-dag"` section. -/
def IoDag.toJ (g : IoDag) : J :=
  .obj ([("uuid", .str g.uuid),
         ("nodes", .obj (g.nodes.map (fun p => (p.1, p.2.toJ)))),
         ("edges", .arr (g.edges.map (fun e =>
            .obj [("source", .str e.source), ("target", .str e.target)])))]
        ++ g.rest)

/-- JSON encoding of the whole written document: the package skeleton with
the `"io-dag"` key assigned on top of it, which is what `json.dump`
serializes to `datapackage.json`. -/
def PkgDoc.toJ (d : PkgDoc) : J :=
  .obj (dictInsert d.base "io-dag" d.iodag.toJ)

/-- The error outcomes of the `DataPackage` reader constructor: a Python
`KeyError` for a missing dict key, or a `TypeError` for subscripting a value
that is not a dict. -/
inductive ReadError where
  | keyError (k : String) : ReadError
  | typeError (k : String) : ReadError
deriving Repr, DecidableEq

/-- Python subscripting `j[k]` on a parsed JSON value: `KeyError` when the
key is absent, `TypeError` when `j` is not a dict. -/
def jGetE (j : J) (k : String) : Except ReadError J :=
  match j with
  | .obj fields =>
      match getKey k fields with
      | some v => .ok v
      | none => .error (.keyError k)
  | _ => .error (.typeError k)

/-- The fields `DataPackage.__init__` extracts from the parsed document. -/
structure DPView where
  uuid : J
  nodes : J
  edges : J
  dataset : J
  source : J
  version : J
  rows : J
  columns : J
  provenance : J
deriving Repr

/-- Embeds the field-extraction part of `DataPackage.__init__`
(`src/eco/entities/datapackage.py`, lines 25-38): every read goes through the
top-level key `"eco"`, in source order `uuid`, `nodes`, `edges`, then
`metadata.data.dataset` / `.source` / `.version`, then `metadata.rows`,
`metadata.columns`, `metadata.provenance`.  The first missing key aborts with
the corresponding `KeyError`, before the profile check and focus assignment
that follow in the source. -/
def dataPackage_init (pkg : J) : Except ReadError DPView :=
  match jGetE pkg "eco" with
  | .error e => .error e
  | .ok eco =>
  match jGetE eco "uuid" with
  | .error e => .error e
  | .ok uuid =>
  match jGetE eco "nodes" with
  | .error e => .error e
  | .ok nodes =>
  match jGetE eco "edges" with
  | .error e => .error e
  | .ok edges =>
  match jGetE eco "metadata" with
  | .error e => .error e
  | .ok mdata =>
  match jGetE mdata "data" with
  | .error e => .error e
  | .ok dat =>
  match jGetE dat "dataset" with
  | .error e => .error e
  | .ok dataset =>
  match jGetE dat "source" with
  | .error e => .error e
  | .ok source =>
  match jGetE dat "version" with
  | .error e => .error e
  | .ok version =>
  match jGetE mdata "rows" with
  | .error e => .error e
  | .ok rows =>
  match jGetE mdata "columns" with
  | .error e => .error e
  | .ok columns =>
  match jGetE mdata "provenance" with
  | .error e => .error e
  | .ok provenance =>
    .ok { uuid := uuid, nodes := nodes, edges := edges, dataset := dataset,
          source := source, version := version, rows := rows,
          columns := columns, provenance := provenance }

/-- The dataset identity block of an `"io-dag"` section: the `data` entry of
the section's `metadata` key, which holds `dataset` (id, title), `source`
(title) and `version` in the document layout the reader expects. -/
def identityFields (g : IoDag) : Option J :=
  match getKey "metadata" g.rest with
  | none => none
  | some m =>
    match m with
    | .obj fields => getKey "data" fields
    | _ => none

/-! Concrete instances used to instantiate the theorems below on closed
inputs. -/

/-- A minimal environment: a validator that accepts everything, empty
filesystems, no existing packages, version string `"0.1.0"`. -/
def E0 : Env :=
  { check := fun _ _ => .valid, tfs := [], jfs := [], yfs := [],
    docs := [], version := "0.1.0" }

/-- The stage node `build_package` run in `E0` produces at time `"t0"` with
no annotations, no views and empty metadata. -/
def n0w : StageNode :=
  { name := "io-python", action := "build_package", time := "t0",
    version := "0.1.0", annot := [], views := [], metadata := J.obj [] }

/-- The stage node `update_package` run in `E0` produces at time `"t1"` with
no annotations, no views and empty metadata. -/
def n1w : StageNode :=
  { name := "io-python", action := "update_package", time := "t1",
    version := "0.1.0", annot := [], views := [], metadata := J.obj [] }

/-- One concrete update step: no resources, annotations or views, inline
empty metadata, no profile, fresh uuid `"u1"` at time `"t1"`. -/
def s1w : UpdStep :=
  { resources := [], annotations := [], views := [],
    metadata := .dict (J.obj []), profile := "", kwargs := [],
    basePkg := [], uuid := "u1", now := "t1" }

/-- The persisted graph after `build_package` (root `"u0"`) followed by the
single update step `s1w`. -/
def g1w : IoDag :=
  { uuid := "u1", nodes := [("u0", n0w), ("u1", n1w)],
    edges := [{ source := "u0", target := "u1" }], rest := [] }

/-- `E0` with the modelled biodat validator installed. -/
def Ebio : Env :=
  { E0 with check := biodatCheck }

/-- `E0` with one text file on disk. -/
def Eann : Env :=
  { E0 with tfs := [("notes.txt", "hello world")] }

/-- `E0` with one JSON view file on disk. -/
def Eview : Env :=
  { E0 with jfs := [("scatter.json", J.obj [("test", J.str "view")])] }

/-- An existing single-node graph whose io-dag section also carries a
`metadata` key with dataset identity fields. -/
def gIdw : IoDag :=
  { uuid := "u0", nodes := [("u0", n0w)], edges := [],
    rest := [("metadata",
      J.obj [("data",
        J.obj [("dataset", J.obj [("id", J.str "X"), ("title", J.str "Y")]),
               ("source", J.obj [("title", J.str "S")]),
               ("version", J.str "1.0")])])] }

/-- `E0` with the package file holding `gIdw` on disk. -/
def Eupd : Env :=
  { E0 with docs := [("datapackage.json", gIdw)] }

/-! Helper lemmas about the dictionary model. -/

theorem getKey_eq_none_iff (k : String) (d : List (String × α)) :
    getKey k d = none ↔ k ∉ d.map Prod.fst := by
  induction d with
  | nil => simp [getKey]
  | cons p rest ih =>
    obtain ⟨k2, v⟩ := p
    by_cases h : k2 = k
    · subst h
      simp [getKey]
    · have h2 : ¬(k = k2) := fun hh => h hh.symm
      simp [getKey, h, h2, ih]

theorem hasKey_eq_false_iff (k : String) (d : List (String × α)) :
    hasKey k d = false ↔ k ∉ d.map Prod.fst := by
  rw [← getKey_eq_none_iff]
  unfold hasKey
  cases getKey k d <;> simp

theorem dictInsert_fresh (d : List (String × α)) (k : String) (v : α)
    (h : hasKey k d = false) : dictInsert d k v = d ++ [(k, v)] := by
  induction d with
  | nil => simp [dictInsert]
  | cons p rest ih =>
    obtain ⟨k2, v2⟩ := p
    have h2 : k2 ≠ k := by
      intro hh
      subst hh
      simp [hasKey, getKey] at h
    have h3 : hasKey k rest = false := by
      simpa [hasKey, getKey, h2] using h
    simp [dictInsert, h2, ih h3]

theorem dictInsert_map_fst_of_has (d : List (String × α)) (k : String) (v : α)
    (h : hasKey k d = true) :
    (dictInsert d k v).map Prod.fst = d.map Prod.fst := by
  induction d with
  | nil => simp [hasKey, getKey] at h
  | cons p rest ih =>
    obtain ⟨k2, v2⟩ := p
    by_cases h2 : k2 = k
    · subst h2
      simp [dictInsert]
    · have h3 : hasKey k rest = true := by
        simpa [hasKey, getKey, h2] using h
      simp [dictInsert, h2, ih h3]

theorem getKey_dictInsert_self (d : List (String × α)) (k : String) (v : α) :
    getKey k (dictInsert d k v) = some v := by
  induction d with
  | nil => simp [dictInsert, getKey]
  | cons p rest ih =>
    obtain ⟨k2, v2⟩ := p
    by_cases h2 : k2 = k
    · subst h2
      simp [dictInsert, getKey]
    · simp [dictInsert, getKey, h2, ih]

theorem getKey_singleton (k : String) (v : α) :
    getKey k [(k, v)] = some v := by
  simp [getKey]

theorem getKey_dictInsert_ne (d : List (String × α)) (k k2 : String) (v : α)
    (h : k ≠ k2) : getKey k (dictInsert d k2 v) = getKey k d := by
  have h2 : ¬(k2 = k) := fun hh => h hh.symm
  induction d with
  | nil => simp [dictInsert, getKey, h2]
  | cons p rest ih =>
    obtain ⟨k3, v3⟩ := p
    by_cases h3 : k3 = k2
    · subst h3
      simp [dictInsert, getKey, h2]
    · simp [dictInsert, getKey, h3, ih]

/-! Helper lemmas about chains. -/

/-- The last element of `u0 :: us`. -/
def lastId (u0 : String) : List String → String
  | [] => u0
  | a :: rest => lastId a rest

theorem chainEdges_concat (us : List String) (u0 u : String) :
    chainEdges ((u0 :: us) ++ [u]) =
      chainEdges (u0 :: us) ++ [{ source := lastId u0 us, target := u }] := by
  induction us generalizing u0 with
  | nil => simp [chainEdges, lastId]
  | cons a rest ih =>
    have step : ((u0 :: a :: rest) ++ [u]) = u0 :: ((a :: rest) ++ [u]) := by simp
    rw [step]
    show { source := u0, target := a } :: chainEdges ((a :: rest) ++ [u]) = _
    rw [ih a]
    simp [chainEdges, lastId]

theorem chainEdges_length (us : List String) (u0 : String) :
    (chainEdges (u0 :: us)).length = us.length := by
  induction us generalizing u0 with
  | nil => simp [chainEdges]
  | cons a rest ih => simp [chainEdges, ih a]

theorem lastId_concat (us : List String) (u0 u : String) :
    lastId u0 (us ++ [u]) = u := by
  induction us generalizing u0 with
  | nil => simp [lastId]
  | cons a rest ih => simp [lastId, ih a]

/-! Shape lemmas: what a successful run of each operation produces. -/

theorem create_node_ok (E : Env) (annotations : List AnnotArg)
    (views : List ViewArg) (now action : String) (node : StageNode)
    (h : create_node E annotations views now action = .ok node) :
    node.name = "io-python" ∧ node.action = action ∧ node.time = now ∧
      node.version = E.version := by
  unfold create_node at h
  split at h
  · exact absurd h (by simp)
  · split at h
    · exact absurd h (by simp)
    · simp only [Except.ok.injEq] at h
      subst h
      exact ⟨rfl, rfl, rfl, rfl⟩

theorem build_ok_shape (E : Env) (resources : List String)
    (annotations : List AnnotArg) (views : List ViewArg)
    (node_metadata dag_metadata : MetaArg) (profile : String)
    (basePkg : List (String × J)) (nodeUuid now : String)
    (tr : List WriteOp) (doc : PkgDoc)
    (h : build_package E resources annotations views node_metadata dag_metadata
      profile basePkg nodeUuid now = (tr, .ok doc)) :
    ∃ node, doc = { base := basePkg, iodag := buildDag nodeUuid node } ∧
      node.action = "build_package" ∧ node.name = "io-python" ∧
      node.time = now ∧
      tr = resources.map WriteOp.writeResource ++
        [WriteOp.writeMetaDirect "datapackage.json" doc] := by
  simp only [build_package] at h
  split at h
  next e hm1 => exact absurd h (by simp)
  next node_mdata hm1 =>
  split at h
  next e hm2 => exact absurd h (by simp)
  next dm hm2 =>
  split at h
  next e hm3 => exact absurd h (by simp)
  next hu hm3 =>
  split at h
  next e hm4 => exact absurd h (by simp)
  next node0 hm4 =>
  simp only [Prod.mk.injEq, Except.ok.injEq] at h
  obtain ⟨htr, hdoc⟩ := h
  obtain ⟨hn, ha, ht, _⟩ := create_node_ok E annotations views now
    "build_package" node0 hm4
  refine ⟨{ node0 with metadata := node_mdata }, hdoc.symm, ha, hn, ht, ?_⟩
  rw [← htr, hdoc]

theorem update_ok_shape (E : Env) (existing : String) (resources : List String)
    (annotations : List AnnotArg) (views : List ViewArg)
    (metadata : MetaArg) (profile : String) (kwargs : List (String × J))
    (basePkg : List (String × J)) (nodeUuid now : String)
    (tr : List WriteOp) (doc : PkgDoc)
    (h : update_package E existing resources annotations views metadata
      profile kwargs basePkg nodeUuid now = (tr, .ok doc)) :
    ∃ dag0 node, getKey existing E.docs = some dag0 ∧
      doc = { base := basePkg, iodag := dagAppend dag0 nodeUuid node } ∧
      node.action = "update_package" ∧ node.name = "io-python" ∧
      node.time = now ∧
      tr = resources.map WriteOp.writeResource ++
        [WriteOp.writeMetaDirect "datapackage.json" doc] := by
  simp only [update_package] at h
  split at h
  next e hm1 => exact absurd h (by simp)
  next node_mdata hm1 =>
  split at h
  next e hm2 => exact absurd h (by simp)
  next hu hm2 =>
  split at h
  next e hm3 => exact absurd h (by simp)
  next node0 hm3 =>
  split at h
  next hm4 => exact absurd h (by simp)
  next dag0 hm4 =>
  simp only [Prod.mk.injEq, Except.ok.injEq] at h
  obtain ⟨htr, hdoc⟩ := h
  obtain ⟨hn, ha, ht, _⟩ := create_node_ok E annotations views now
    "update_package" node0 hm3
  refine ⟨dag0, { node0 with metadata := node_mdata }, hm4, hdoc.symm,
    ha, hn, ht, ?_⟩
  rw [← htr, hdoc]

theorem updOnce_ok (E : Env) (g : IoDag) (s : UpdStep) (g2 : IoDag)
    (h : updOnce E g s = .ok g2) :
    ∃ node, g2 = dagAppend g s.uuid node ∧ node.action = "update_package" := by
  unfold updOnce at h
  rcases hU : update_package { E with docs := [("datapackage.json", g)] }
      "datapackage.json" s.resources s.annotations s.views s.metadata
      s.profile s.kwargs s.basePkg s.uuid s.now with ⟨tr, res⟩
  rw [hU] at h
  cases res with
  | error e => simp at h
  | ok doc =>
    simp only [Except.ok.injEq] at h
    obtain ⟨dag0, node, hget, hdoc, ha, _, _, _⟩ :=
      update_ok_shape _ _ _ _ _ _ _ _ _ _ _ tr doc hU
    have hg : dag0 = g := by
      have := getKey_singleton "datapackage.json" g
      simp only [this, Option.some.injEq] at hget
      exact hget.symm
    subst hg
    exact ⟨node, by rw [← h, hdoc], ha⟩

theorem updMany_chain (E : Env) :
    ∀ (steps : List UpdStep) (g g' : IoDag) (u0 : String) (us : List String),
      updMany E g steps = .ok g' →
      g.nodes.map Prod.fst = u0 :: us →
      g.edges = chainEdges (u0 :: us) →
      g.uuid = lastId u0 us →
      ((u0 :: us) ++ steps.map UpdStep.uuid).Nodup →
      g'.nodes.map Prod.fst = (u0 :: us) ++ steps.map UpdStep.uuid ∧
      g'.edges = chainEdges ((u0 :: us) ++ steps.map UpdStep.uuid) ∧
      g'.uuid = lastId u0 (us ++ steps.map UpdStep.uuid) ∧
      ∃ tail, g'.nodes = g.nodes ++ tail := by
  intro steps
  induction steps with
  | nil =>
    intro g g' u0 us h h1 h2 h3 _
    simp only [updMany, Except.ok.injEq] at h
    subst h
    exact ⟨by simp [h1], by simp [h2], by simp [h3], [], by simp⟩
  | cons s rest ih =>
    intro g g' u0 us h h1 h2 h3 hnd
    simp only [updMany] at h
    split at h
    next e heq => exact absurd h (by simp)
    next g2 heq =>
    obtain ⟨node, hg2, _⟩ := updOnce_ok E g s g2 heq
    have hfresh : s.uuid ∉ (u0 :: us) := by
      intro hmem
      obtain ⟨_, _, hdisj⟩ := List.nodup_append.mp hnd
      exact hdisj hmem (by simp)
    have hkey : hasKey s.uuid g.nodes = false := by
      rw [hasKey_eq_false_iff, h1]
      exact hfresh
    have h1' : g2.nodes.map Prod.fst = (u0 :: us) ++ [s.uuid] := by
      rw [hg2]
      show (dictInsert g.nodes s.uuid node).map Prod.fst = _
      rw [dictInsert_fresh _ _ _ hkey]
      simp [h1]
    have h2' : g2.edges = chainEdges ((u0 :: us) ++ [s.uuid]) := by
      rw [hg2]
      show g.edges ++ [{ source := g.uuid, target := s.uuid }] = _
      rw [chainEdges_concat, h2, h3]
    have h3' : g2.uuid = lastId u0 (us ++ [s.uuid]) := by
      rw [hg2, lastId_concat]
      rfl
    have hlist : ((u0 :: (us ++ [s.uuid])) ++ rest.map UpdStep.uuid) =
        ((u0 :: us) ++ (s :: rest).map UpdStep.uuid) := by
      simp
    have hnd' : ((u0 :: (us ++ [s.uuid])) ++ rest.map UpdStep.uuid).Nodup := by
      rw [hlist]
      exact hnd
    obtain ⟨c1, c2, c3, tail, c4⟩ := ih g2 g' u0 (us ++ [s.uuid]) h h1' h2' h3' hnd'
    have hnodes2 : g2.nodes = g.nodes ++ [(s.uuid, node)] := by
      rw [hg2]
      show dictInsert g.nodes s.uuid node = _
      exact dictInsert_fresh _ _ _ hkey
    refine ⟨?_, ?_, ?_, [(s.uuid, node)] ++ tail, ?_⟩
    · rw [c1, hlist]
    · rw [c2, hlist]
    · rw [c3]
      congr 1
      simp
    · rw [c4, hnodes2]
      simp

/-! Claim theorems. -/

/-- C1: a `build_package` call produces a provenance graph with exactly one
node, zero edges, and the frontier uuid equal to that node's id; each
successful `update_package` call with a fresh uuid carries every existing
node and edge over unchanged, appending one node and one edge; and every
sequence of N successful `update_package` calls starting from one
`build_package` (each call reading the document the previous one persisted,
with pairwise distinct generated uuids) yields a persisted graph with exactly
N+1 nodes and N edges whose edge sequence is a single chain from the root
node to the final frontier uuid. -/
theorem c1_build_then_updates_form_chain :
    (∀ (E : Env) (resources : List String) (annotations : List AnnotArg)
        (views : List ViewArg) (node_metadata dag_metadata : MetaArg)
        (profile : String) (basePkg : List (String × J))
        (nodeUuid now : String) (tr : List WriteOp) (doc : PkgDoc),
      build_package E resources annotations views node_metadata dag_metadata
          profile basePkg nodeUuid now = (tr, .ok doc) →
      ∃ node, doc.iodag = buildDag nodeUuid node ∧
        doc.iodag.nodes.length = 1 ∧ doc.iodag.edges = [] ∧
        doc.iodag.uuid = nodeUuid) ∧
    (∀ (E : Env) (g : IoDag) (s : UpdStep) (g2 : IoDag),
      updOnce E g s = .ok g2 → hasKey s.uuid g.nodes = false →
      ∃ node, g2.nodes = g.nodes ++ [(s.uuid, node)] ∧
        g2.edges = g.edges ++ [{ source := g.uuid, target := s.uuid }] ∧
        g2.uuid = s.uuid) ∧
    (∀ (E : Env) (u0 : String) (n0 : StageNode) (steps : List UpdStep)
        (g' : IoDag),
      updMany E (buildDag u0 n0) steps = .ok g' →
      (u0 :: steps.map UpdStep.uuid).Nodup →
      g'.nodes.length = steps.length + 1 ∧
      g'.edges.length = steps.length ∧
      g'.nodes.map Prod.fst = u0 :: steps.map UpdStep.uuid ∧
      g'.edges = chainEdges (u0 :: steps.map UpdStep.uuid) ∧
      g'.uuid = lastId u0 (steps.map UpdStep.uuid) ∧
      g'.nodes.head? = some (u0, n0)) := by
  refine ⟨?_, ?_, ?_⟩
  · intro E resources annotations views node_metadata dag_metadata profile
      basePkg nodeUuid now tr doc h
    obtain ⟨node, hdoc, _, _, _, _⟩ :=
      build_ok_shape _ _ _ _ _ _ _ _ _ _ tr doc h
    refine ⟨node, ?_, ?_, ?_, ?_⟩ <;> rw [hdoc] <;> simp [buildDag]
  · intro E g s g2 h hkey
    obtain ⟨node, hg2, _⟩ := updOnce_ok E g s g2 h
    refine ⟨node, ?_, ?_, ?_⟩ <;> rw [hg2]
    · exact dictInsert_fresh _ _ _ hkey
    · rfl
    · rfl
  · intro E u0 n0 steps g' h hnd
    have hbase1 : (buildDag u0 n0).nodes.map Prod.fst = u0 :: ([] : List String) := by
      simp [buildDag]
    have hbase2 : (buildDag u0 n0).edges = chainEdges (u0 :: []) := by
      simp [buildDag, chainEdges]
    have hbase3 : (buildDag u0 n0).uuid = lastId u0 [] := by
      simp [buildDag, lastId]
    obtain ⟨c1, c2, c3, tail, c4⟩ :=
      updMany_chain E steps (buildDag u0 n0) g' u0 [] h hbase1 hbase2 hbase3
        (by simpa using hnd)
    have hlen : g'.nodes.length = steps.length + 1 := by
      have := congrArg List.length c1
      simpa using this
    refine ⟨hlen, ?_, by simpa using c1, by simpa using c2, by simpa using c3, ?_⟩
    · have := congrArg List.length c2
      simpa [chainEdges_length] using this
    · rw [c4]
      simp [buildDag]

/-- Witness for C1: the third conjunct applied to the concrete run of one
`build_package` (root uuid `"u0"`) followed by one `update_package`
(uuid `"u1"`), whose persisted graph is `g1w`. -/
theorem c1_witness :
    (updMany E0 (buildDag "u0" n0w) [s1w] = .ok g1w ∧
      ("u0" :: [s1w].map UpdStep.uuid).Nodup) ∧
    (g1w.nodes.length = 1 + 1 ∧ g1w.edges.length = 1 ∧
      g1w.nodes.map Prod.fst = "u0" :: [s1w].map UpdStep.uuid ∧
      g1w.edges = chainEdges ("u0" :: [s1w].map UpdStep.uuid) ∧
      g1w.uuid = lastId "u0" ([s1w].map UpdStep.uuid) ∧
      g1w.nodes.head? = some ("u0", n0w)) := by
  refine ⟨⟨rfl, by decide⟩, ?_⟩
  exact c1_build_then_updates_form_chain.2.2 E0 "u0" n0w [s1w] g1w rfl (by decide)

/-- C2: with a non-empty profile whose schema the supplied metadata does not
satisfy, both `build_package` and `update_package` fail with
`metadataValidationFailed` carrying the full field-error list of the
validator, and the write trace is empty: no resource file and no
`datapackage.json` is written, so the prior state of the output directory is
unchanged. -/
theorem c2_validation_failure_aborts_all_writes :
    ∀ (E : Env) (profile : String) (md : J) (errs : List (String × String)),
      profile ≠ "" →
      E.check md profile = .invalid errs →
      (∀ (resources : List String) (annotations : List AnnotArg)
          (views : List ViewArg) (node_metadata dag_metadata : MetaArg)
          (basePkg : List (String × J)) (nodeUuid now : String) (dm : J),
        parse_metadata E node_metadata = .ok md →
        parse_metadata E dag_metadata = .ok dm →
        build_package E resources annotations views node_metadata dag_metadata
          profile basePkg nodeUuid now =
          ([], .error (.metadataValidationFailed errs))) ∧
      (∀ (existing : String) (resources : List String)
          (annotations : List AnnotArg) (views : List ViewArg)
          (metadata : MetaArg) (kwargs : List (String × J))
          (basePkg : List (String × J)) (nodeUuid now : String),
        parse_metadata E metadata = .ok md →
        update_package E existing resources annotations views metadata
          profile kwargs basePkg nodeUuid now =
          ([], .error (.metadataValidationFailed errs))) := by
  intro E profile md errs hp hcheck
  constructor
  · intro resources annotations views node_metadata dag_metadata basePkg
      nodeUuid now dm h1 h2
    simp [build_package, h1, h2, hp, validate_metadata, hcheck]
  · intro existing resources annotations views metadata kwargs basePkg
      nodeUuid now h1
    simp [update_package, h1, hp, validate_metadata, hcheck]

/-- Witness for C2: in `Ebio` (the modelled biodat validator), building or
updating with inline metadata that lacks the required `species` field and
profile `"biodat"` aborts with the `species` missing-field error and an
empty write trace. -/
theorem c2_witness :
    (("biodat" : String) ≠ "" ∧
      Ebio.check (J.obj []) "biodat" =
        .invalid [("species", "required field")] ∧
      parse_metadata Ebio (.dict (J.obj [])) = .ok (J.obj [])) ∧
    build_package Ebio [] [] [] (.dict (J.obj [])) (.dict (J.obj []))
        "biodat" [] "u0" "t0" =
      ([], .error (.metadataValidationFailed
        [("species", "required field")])) ∧
    update_package Ebio "datapackage.json" [] [] [] (.dict (J.obj []))
        "biodat" [] [] "u0" "t0" =
      ([], .error (.metadataValidationFailed
        [("species", "required field")])) := by
  have h := c2_validation_failure_aborts_all_writes Ebio "biodat" (J.obj [])
    [("species", "required field")] (by decide) rfl
  exact ⟨⟨by decide, rfl, rfl⟩,
    h.1 [] [] [] (.dict (J.obj [])) (.dict (J.obj [])) [] "u0" "t0"
      (J.obj []) rfl rfl,
    h.2 "datapackage.json" [] [] [] (.dict (J.obj [])) [] [] "u0" "t0" rfl⟩

/-- Counterexample to C3 as stated: on a concrete successful `build_package`
call, the write trace contains a direct open-and-write of the final
`datapackage.json` path and no temporary-file write and no rename at all, so
the metadata write is not performed via a temporary file followed by an
atomic rename. -/
theorem c3_counterexample :
    ((build_package E0 [] [] [] (.dict (J.obj [])) (.dict (J.obj [])) "" []
        "u0" "t0").1.any WriteOp.isDirectMetaWrite) = true ∧
    ((build_package E0 [] [] [] (.dict (J.obj [])) (.dict (J.obj [])) "" []
        "u0" "t0").1.any WriteOp.isAtomicProtocolOp) = false :=
  ⟨rfl, rfl⟩

theorem resource_trace_no_atomic (resources : List String) :
    ((resources.map WriteOp.writeResource).any WriteOp.isAtomicProtocolOp)
      = false := by
  induction resources with
  | nil => rfl
  | cons r rest ih => simp [WriteOp.isAtomicProtocolOp, ih]

theorem build_trace_cases (E : Env) (resources : List String)
    (annotations : List AnnotArg) (views : List ViewArg)
    (node_metadata dag_metadata : MetaArg) (profile : String)
    (basePkg : List (String × J)) (nodeUuid now : String) :
    (build_package E resources annotations views node_metadata dag_metadata
        profile basePkg nodeUuid now).1 = [] ∨
    (build_package E resources annotations views node_metadata dag_metadata
        profile basePkg nodeUuid now).1
      = resources.map WriteOp.writeResource ∨
    ∃ doc, (build_package E resources annotations views node_metadata
        dag_metadata profile basePkg nodeUuid now).1
      = resources.map WriteOp.writeResource ++
        [WriteOp.writeMetaDirect "datapackage.json" doc] := by
  simp only [build_package]
  split
  · exact Or.inl rfl
  · split
    · exact Or.inl rfl
    · split
      · exact Or.inl rfl
      · split
        · exact Or.inr (Or.inl rfl)
        · exact Or.inr (Or.inr ⟨_, rfl⟩)

theorem update_trace_cases (E : Env) (existing : String)
    (resources : List String) (annotations : List AnnotArg)
    (views : List ViewArg) (metadata : MetaArg) (profile : String)
    (kwargs : List (String × J)) (basePkg : List (String × J))
    (nodeUuid now : String) :
    (update_package E existing resources annotations views metadata profile
        kwargs basePkg nodeUuid now).1 = [] ∨
    (update_package E existing resources annotations views metadata profile
        kwargs basePkg nodeUuid now).1
      = resources.map WriteOp.writeResource ∨
    ∃ doc, (update_package E existing resources annotations views metadata
        profile kwargs basePkg nodeUuid now).1
      = resources.map WriteOp.writeResource ++
        [WriteOp.writeMetaDirect "datapackage.json" doc] := by
  simp only [update_package]
  split
  · exact Or.inl rfl
  · split
    · exact Or.inl rfl
    · split
      · exact Or.inr (Or.inl rfl)
      · split
        · exact Or.inr (Or.inl rfl)
        · exact Or.inr (Or.inr ⟨_, rfl⟩)

/-- C3 as amended: every metadata-document write of `build_package` and
`update_package` is a single direct open-and-write of the final
`datapackage.json` path (the last operation of a successful trace), and no
trace of either operation ever contains a temporary-file write or a rename;
a failed write can therefore leave a half-written document. -/
theorem c3_amended_direct_unprotected_write :
    (∀ (E : Env) (resources : List String) (annotations : List AnnotArg)
        (views : List ViewArg) (node_metadata dag_metadata : MetaArg)
        (profile : String) (basePkg : List (String × J))
        (nodeUuid now : String),
      ((build_package E resources annotations views node_metadata
          dag_metadata profile basePkg nodeUuid now).1.any
        WriteOp.isAtomicProtocolOp) = false) ∧
    (∀ (E : Env) (resources : List String) (annotations : List AnnotArg)
        (views : List ViewArg) (node_metadata dag_metadata : MetaArg)
        (profile : String) (basePkg : List (String × J))
        (nodeUuid now : String) (tr : List WriteOp) (doc : PkgDoc),
      build_package E resources annotations views node_metadata dag_metadata
          profile basePkg nodeUuid now = (tr, .ok doc) →
      tr.getLast? = some (.writeMetaDirect "datapackage.json" doc)) ∧
    (∀ (E : Env) (existing : String) (resources : List String)
        (annotations : List AnnotArg) (views : List ViewArg)
        (metadata : MetaArg) (profile : String) (kwargs : List (String × J))
        (basePkg : List (String × J)) (nodeUuid now : String),
      ((update_package E existing resources annotations views metadata
          profile kwargs basePkg nodeUuid now).1.any
        WriteOp.isAtomicProtocolOp) = false) ∧
    (∀ (E : Env) (existing : String) (resources : List String)
        (annotations : List AnnotArg) (views : List ViewArg)
        (metadata : MetaArg) (profile : String) (kwargs : List (String × J))
        (basePkg : List (String × J)) (nodeUuid now : String)
        (tr : List WriteOp) (doc : PkgDoc),
      update_package E existing resources annotations views metadata profile
          kwargs basePkg nodeUuid now = (tr, .ok doc) →
      tr.getLast? = some (.writeMetaDirect "datapackage.json" doc)) := by
  refine ⟨?_, ?_, ?_, ?_⟩
  · intro E resources annotations views node_metadata dag_metadata profile
      basePkg nodeUuid now
    rcases build_trace_cases E resources annotations views node_metadata
      dag_metadata profile basePkg nodeUuid now with h | h | ⟨doc, h⟩ <;>
      rw [h]
    · rfl
    · exact resource_trace_no_atomic resources
    · simp [resource_trace_no_atomic resources, WriteOp.isAtomicProtocolOp]
  · intro E resources annotations views node_metadata dag_metadata profile
      basePkg nodeUuid now tr doc h
    obtain ⟨node, _, _, _, _, htr⟩ :=
      build_ok_shape _ _ _ _ _ _ _ _ _ _ tr doc h
    rw [htr]
    exact List.getLast?_concat _
  · intro E existing resources annotations views metadata profile kwargs
      basePkg nodeUuid now
    rcases update_trace_cases E existing resources annotations views metadata
      profile kwargs basePkg nodeUuid now with h | h | ⟨doc, h⟩ <;>
      rw [h]
    · rfl
    · exact resource_trace_no_atomic resources
    · simp [resource_trace_no_atomic resources, WriteOp.isAtomicProtocolOp]
  · intro E existing resources annotations views metadata profile kwargs
      basePkg nodeUuid now tr doc h
    obtain ⟨dag0, node, _, _, _, _, _, htr⟩ :=
      update_ok_shape _ _ _ _ _ _ _ _ _ _ _ tr doc h
    rw [htr]
    exact List.getLast?_concat _

/-- Witness for C3 as amended: the concrete successful build writes one
resource and then the metadata document directly to `datapackage.json`,
which is the last operation of its trace. -/
theorem c3_witness :
    build_package E0 ["data"] [] [] (.dict (J.obj [])) (.dict (J.obj [])) ""
        [] "u0" "t0" =
      ([WriteOp.writeResource "data",
        WriteOp.writeMetaDirect "datapackage.json"
          { base := [], iodag := buildDag "u0" n0w }],
       .ok { base := [], iodag := buildDag "u0" n0w }) ∧
    ([WriteOp.writeResource "data",
      WriteOp.writeMetaDirect "datapackage.json"
        { base := [], iodag := buildDag "u0" n0w }].getLast?
      = some (WriteOp.writeMetaDirect "datapackage.json"
          { base := [], iodag := buildDag "u0" n0w })) := by
  refine ⟨rfl, ?_⟩
  exact c3_amended_direct_unprotected_write.2.1 E0 ["data"] [] []
    (.dict (J.obj [])) (.dict (J.obj [])) "" [] "u0" "t0" _
    { base := [], iodag := buildDag "u0" n0w } rfl

/-- C4: the written document of every successful `update_package` call keeps
every key of the loaded io-dag section other than `uuid`, `nodes` and
`edges` unchanged; in particular the dataset identity block
(`metadata.data`, holding `datasetId`, `datasetTitle`, `sourceTitle`,
`version`) of the written document is exactly that of the loaded document,
for every combination of the other arguments. -/
theorem c4_identity_fields_preserved :
    ∀ (E : Env) (existing : String) (resources : List String)
      (annotations : List AnnotArg) (views : List ViewArg)
      (metadata : MetaArg) (profile : String) (kwargs : List (String × J))
      (basePkg : List (String × J)) (nodeUuid now : String)
      (tr : List WriteOp) (doc : PkgDoc) (dag0 : IoDag),
      getKey existing E.docs = some dag0 →
      update_package E existing resources annotations views metadata profile
        kwargs basePkg nodeUuid now = (tr, .ok doc) →
      doc.iodag.rest = dag0.rest ∧
      identityFields doc.iodag = identityFields dag0 := by
  intro E existing resources annotations views metadata profile kwargs
    basePkg nodeUuid now tr doc dag0 hload h
  obtain ⟨dag0', node, hget, hdoc, _, _, _, _⟩ :=
    update_ok_shape _ _ _ _ _ _ _ _ _ _ _ tr doc h
  rw [hload] at hget
  obtain rfl : dag0 = dag0' := by
    simpa using hget
  have hrest : doc.iodag.rest = dag0.rest := by
    rw [hdoc]
    rfl
  exact ⟨hrest, by unfold identityFields; rw [hrest]⟩

/-- Witness for C4: one concrete update of the package holding `gIdw`, whose
identity block `{dataset: {id: X, title: Y}, source: {title: S},
version: 1.0}` is carried over unchanged. -/
theorem c4_witness :
    (getKey "datapackage.json" Eupd.docs = some gIdw ∧
      update_package Eupd "datapackage.json" [] [] [] (.dict (J.obj [])) ""
          [] [] "u1" "t1" =
        ([WriteOp.writeMetaDirect "datapackage.json"
            { base := [], iodag := dagAppend gIdw "u1" n1w }],
         .ok { base := [], iodag := dagAppend gIdw "u1" n1w })) ∧
    ((dagAppend gIdw "u1" n1w).rest = gIdw.rest ∧
      identityFields (dagAppend gIdw "u1" n1w) = identityFields gIdw) := by
  refine ⟨⟨rfl, rfl⟩, ?_⟩
  exact c4_identity_fields_preserved Eupd "datapackage.json" [] [] []
    (.dict (J.obj [])) "" [] [] "u1" "t1" _
    { base := [], iodag := dagAppend gIdw "u1" n1w } gIdw rfl rfl

/-- C5: every document written by `build_package` or `update_package` holds
its provenance block under the top-level key `"io-dag"`, while the
`DataPackage` reader constructor reads only the top-level key `"eco"`; since
the package skeleton from `frictionless.describe_package` has no `"eco"` key
of its own, constructing a `DataPackage` on any written document fails with
the missing-key error for `"eco"` instead of returning a navigable view. -/
theorem c5_writer_reader_namespace_mismatch :
    (∀ (E : Env) (resources : List String) (annotations : List AnnotArg)
        (views : List ViewArg) (node_metadata dag_metadata : MetaArg)
        (profile : String) (basePkg : List (String × J))
        (nodeUuid now : String) (tr : List WriteOp) (doc : PkgDoc),
      build_package E resources annotations views node_metadata dag_metadata
          profile basePkg nodeUuid now = (tr, .ok doc) →
      getKey "eco" basePkg = none →
      jGetE doc.toJ "io-dag" = .ok doc.iodag.toJ ∧
      dataPackage_init doc.toJ = .error (.keyError "eco")) ∧
    (∀ (E : Env) (existing : String) (resources : List String)
        (annotations : List AnnotArg) (views : List ViewArg)
        (metadata : MetaArg) (profile : String) (kwargs : List (String × J))
        (basePkg : List (String × J)) (nodeUuid now : String)
        (tr : List WriteOp) (doc : PkgDoc),
      update_package E existing resources annotations views metadata profile
          kwargs basePkg nodeUuid now = (tr, .ok doc) →
      getKey "eco" basePkg = none →
      jGetE doc.toJ "io-dag" = .ok doc.iodag.toJ ∧
      dataPackage_init doc.toJ = .error (.keyError "eco")) := by
  have main : ∀ (doc : PkgDoc) (basePkg : List (String × J)),
      doc.base = basePkg → getKey "eco" basePkg = none →
      jGetE doc.toJ "io-dag" = .ok doc.iodag.toJ ∧
      dataPackage_init doc.toJ = .error (.keyError "eco") := by
    intro doc basePkg hbase heco
    have hdag : getKey "io-dag" (dictInsert doc.base "io-dag" doc.iodag.toJ)
        = some doc.iodag.toJ := getKey_dictInsert_self _ _ _
    have hecoKey : getKey "eco" (dictInsert doc.base "io-dag" doc.iodag.toJ)
        = none := by
      rw [getKey_dictInsert_ne _ _ _ _ (by decide), hbase, heco]
    have h1 : jGetE doc.toJ "eco" = .error (.keyError "eco") := by
      simp [PkgDoc.toJ, jGetE, hecoKey]
    refine ⟨?_, ?_⟩
    · simp [PkgDoc.toJ, jGetE, hdag]
    · simp [dataPackage_init, h1]
  constructor
  · intro E resources annotations views node_metadata dag_metadata profile
      basePkg nodeUuid now tr doc h heco
    obtain ⟨node, hdoc, _, _, _, _⟩ :=
      build_ok_shape _ _ _ _ _ _ _ _ _ _ tr doc h
    exact main doc basePkg (by rw [hdoc]) heco
  · intro E existing resources annotations views metadata profile kwargs
      basePkg nodeUuid now tr doc h heco
    obtain ⟨dag0, node, _, hdoc, _, _, _, _⟩ :=
      update_ok_shape _ _ _ _ _ _ _ _ _ _ _ tr doc h
    exact main doc basePkg (by rw [hdoc]) heco

/-- Witness for C5: the document written by a concrete `build_package` call
holds its provenance under `"io-dag"`, and the reader constructor fails on
it with the missing-key error for `"eco"`. -/
theorem c5_witness :
    (build_package E0 [] [] [] (.dict (J.obj [])) (.dict (J.obj [])) "" []
        "u0" "t0" =
      ([WriteOp.writeMetaDirect "datapackage.json"
          { base := [], iodag := buildDag "u0" n0w }],
       .ok { base := [], iodag := buildDag "u0" n0w }) ∧
      getKey "eco" ([] : List (String × J)) = none) ∧
    (jGetE (PkgDoc.toJ { base := [], iodag := buildDag "u0" n0w }) "io-dag"
        = .ok (buildDag "u0" n0w).toJ ∧
      dataPackage_init (PkgDoc.toJ { base := [], iodag := buildDag "u0" n0w })
        = .error (.keyError "eco")) := by
  refine ⟨⟨rfl, rfl⟩, ?_⟩
  exact c5_writer_reader_namespace_mismatch.1 E0 [] [] [] (.dict (J.obj []))
    (.dict (J.obj [])) "" [] "u0" "t0" _
    { base := [], iodag := buildDag "u0" n0w } rfl rfl

/-- Counterexample to C6 as stated: a concrete `update_package` call whose
generated uuid `"u0"` is already a node key of the loaded graph does not
fail with any duplicate-id error; it succeeds and silently replaces the
existing root node entry (`n0w` is gone, the node dict maps `"u0"` to the
new update node), appending a self-loop edge. -/
theorem c6_counterexample :
    update_package { E0 with docs := [("datapackage.json", buildDag "u0" n0w)] }
        "datapackage.json" [] [] [] (.dict (J.obj [])) "" [] [] "u0" "t1" =
      ([WriteOp.writeMetaDirect "datapackage.json"
          { base := [],
            iodag := { uuid := "u0", nodes := [("u0", n1w)],
                       edges := [{ source := "u0", target := "u0" }],
                       rest := [] } }],
       .ok { base := [],
             iodag := { uuid := "u0", nodes := [("u0", n1w)],
                        edges := [{ source := "u0", target := "u0" }],
                        rest := [] } }) := rfl

/-- C6 as amended: `update_package` performs no duplicate-id check.  When the
generated uuid is already present among the loaded graph's node keys, the
call still succeeds and the dict assignment silently replaces that node's
entry with the new update node: the key sequence and the node count are
unchanged and the colliding key now maps to the new node. -/
theorem c6_amended_silent_overwrite :
    ∀ (E : Env) (existing : String) (resources : List String)
      (annotations : List AnnotArg) (views : List ViewArg)
      (metadata : MetaArg) (profile : String) (kwargs : List (String × J))
      (basePkg : List (String × J)) (nodeUuid now : String)
      (tr : List WriteOp) (doc : PkgDoc) (dag0 : IoDag),
      getKey existing E.docs = some dag0 →
      update_package E existing resources annotations views metadata profile
        kwargs basePkg nodeUuid now = (tr, .ok doc) →
      hasKey nodeUuid dag0.nodes = true →
      doc.iodag.nodes.map Prod.fst = dag0.nodes.map Prod.fst ∧
      doc.iodag.nodes.length = dag0.nodes.length ∧
      ∃ node, getKey nodeUuid doc.iodag.nodes = some node ∧
        node.action = "update_package" := by
  intro E existing resources annotations views metadata profile kwargs
    basePkg nodeUuid now tr doc dag0 hload h hdup
  obtain ⟨dag0', node, hget, hdoc, ha, _, _, _⟩ :=
    update_ok_shape _ _ _ _ _ _ _ _ _ _ _ tr doc h
  rw [hload] at hget
  obtain rfl : dag0 = dag0' := by
    simpa using hget
  have hnodes : doc.iodag.nodes = dictInsert dag0.nodes nodeUuid node := by
    rw [hdoc]
    rfl
  have hmap : doc.iodag.nodes.map Prod.fst = dag0.nodes.map Prod.fst := by
    rw [hnodes]
    exact dictInsert_map_fst_of_has _ _ _ hdup
  refine ⟨hmap, ?_, node, ?_, ha⟩
  · have := congrArg List.length hmap
    simpa using this
  · rw [hnodes]
    exact getKey_dictInsert_self _ _ _

/-- Witness for C6 as amended: applying the amended statement to the
concrete colliding update of `c6_counterexample`'s input. -/
theorem c6_witness :
    (getKey "datapackage.json"
        ({ E0 with docs := [("datapackage.json", buildDag "u0" n0w)] } : Env).docs
        = some (buildDag "u0" n0w) ∧
      hasKey "u0" (buildDag "u0" n0w).nodes = true) ∧
    ([("u0", n1w)].map Prod.fst = (buildDag "u0" n0w).nodes.map Prod.fst ∧
      [("u0", n1w)].length = (buildDag "u0" n0w).nodes.length ∧
      ∃ node, getKey "u0" [("u0", n1w)] = some node ∧
        node.action = "update_package") := by
  refine ⟨⟨rfl, rfl⟩, ?_⟩
  exact c6_amended_silent_overwrite
    { E0 with docs := [("datapackage.json", buildDag "u0" n0w)] }
    "datapackage.json" [] [] [] (.dict (J.obj [])) "" [] [] "u0" "t1" _
    { base := [],
      iodag := { uuid := "u0", nodes := [("u0", n1w)],
                 edges := [{ source := "u0", target := "u0" }], rest := [] } }
    (buildDag "u0" n0w) rfl rfl rfl

/-- C7: annotation resolution.  An entry naming an existing readable file
(whether passed as a plain string or as a path value) resolves to that
file's full text; a plain string naming no existing file is used verbatim;
and a path-typed entry naming no existing file fails with the
invalid-annotation-path error. -/
theorem c7_annotation_resolution :
    ∀ (E : Env),
      (∀ p txt, getKey p E.tfs = some txt →
        parse_annotation' E (.path p) = .ok txt ∧
        parse_annotation' E (.str p) = .ok txt) ∧
      (∀ s, getKey s E.tfs = none →
        parse_annotation' E (.str s) = .ok s) ∧
      (∀ p, getKey p E.tfs = none →
        parse_annotation' E (.path p) = .error (.invalidAnnotationPath p)) := by
  intro E
  refine ⟨?_, ?_, ?_⟩
  · intro p txt h
    constructor <;> simp [parse_annotation', h]
  · intro s h
    simp [parse_annotation', h]
  · intro p h
    simp [parse_annotation', h]

/-- Witness for C7: in `Eann` (one text file `notes.txt` with contents
`hello world`), a file-naming entry of either runtime type resolves to the
file text, a non-file string is kept verbatim, and a non-file path errors. -/
theorem c7_witness :
    (getKey "notes.txt" Eann.tfs = some "hello world" ∧
      getKey "a plain note" Eann.tfs = none ∧
      getKey "missing.txt" Eann.tfs = none) ∧
    (parse_annotation' Eann (.path "notes.txt") = .ok "hello world" ∧
      parse_annotation' Eann (.str "notes.txt") = .ok "hello world" ∧
      parse_annotation' Eann (.str "a plain note") = .ok "a plain note" ∧
      parse_annotation' Eann (.path "missing.txt")
        = .error (.invalidAnnotationPath "missing.txt")) := by
  refine ⟨⟨rfl, rfl, rfl⟩, ?_, ?_, ?_, ?_⟩
  · exact ((c7_annotation_resolution Eann).1 "notes.txt" "hello world" rfl).1
  · exact ((c7_annotation_resolution Eann).1 "notes.txt" "hello world" rfl).2
  · exact (c7_annotation_resolution Eann).2.1 "a plain note" rfl
  · exact (c7_annotation_resolution Eann).2.2 "missing.txt" rfl

/-- Counterexample to C8 as stated: a concrete view reference that is a
path-typed value naming no existing file, hence resolvable to neither a file
nor a literal structured value, is accepted verbatim by `parse_view` instead
of failing with any invalid-view-source error. -/
theorem c8_counterexample :
    parse_view E0 (.path "missing.json") = .ok (.literal (.path "missing.json")) :=
  rfl

/-- C8 as amended: a view entry naming an existing JSON file is replaced by
that file's parsed contents; every other entry, a dict or a string or path
naming no existing file, is used verbatim as-is; `parse_view` never fails,
and no invalid-view-source error is raised even for unresolvable path
references. -/
theorem c8_amended_view_resolution :
    ∀ (E : Env),
      (∀ p j, getKey p E.jfs = some j →
        parse_view E (.path p) = .ok (.fromFile j) ∧
        parse_view E (.str p) = .ok (.fromFile j)) ∧
      (∀ j, parse_view E (.dict j) = .ok (.literal (.dict j))) ∧
      (∀ p, getKey p E.jfs = none →
        parse_view E (.path p) = .ok (.literal (.path p)) ∧
        parse_view E (.str p) = .ok (.literal (.str p))) := by
  intro E
  refine ⟨?_, ?_, ?_⟩
  · intro p j h
    constructor <;> simp [parse_view, h]
  · intro j
    rfl
  · intro p h
    constructor <;> simp [parse_view, h]

/-- Witness for C8 as amended: in `Eview` (one JSON file `scatter.json`), a
file-naming entry resolves to the parsed file contents, a dict is used
as-is, and a non-file path or string is used verbatim without error. -/
theorem c8_witness :
    (getKey "scatter.json" Eview.jfs = some (J.obj [("test", J.str "view")]) ∧
      getKey "missing.json" Eview.jfs = none) ∧
    (parse_view Eview (.path "scatter.json")
        = .ok (.fromFile (J.obj [("test", J.str "view")])) ∧
      parse_view Eview (.dict (J.obj [("a", J.num 1)]))
        = .ok (.literal (.dict (J.obj [("a", J.num 1)]))) ∧
      parse_view Eview (.path "missing.json")
        = .ok (.literal (.path "missing.json"))) := by
  refine ⟨⟨rfl, rfl⟩, ?_, ?_, ?_⟩
  · exact ((c8_amended_view_resolution Eview).1 "scatter.json"
      (J.obj [("test", J.str "view")]) rfl).1
  · exact (c8_amended_view_resolution Eview).2.1 (J.obj [("a", J.num 1)])
  · exact ((c8_amended_view_resolution Eview).2.2 "missing.json" rfl).1

/-- Counterexample to C9 as stated: on concrete runs, the stage node created
by `build_package` has action `"build_package"`, not `"build"`, and the node
appended by `update_package` has action `"update_package"`, not
`"update"`. -/
theorem c9_counterexample :
    ((build_package E0 [] [] [] (.dict (J.obj [])) (.dict (J.obj [])) "" []
        "u0" "t0").2 = .ok { base := [], iodag := buildDag "u0" n0w }) ∧
    n0w.action = "build_package" ∧ ("build_package" : String) ≠ "build" ∧
    ((update_package { E0 with docs := [("datapackage.json", buildDag "u0" n0w)] }
        "datapackage.json" [] [] [] (.dict (J.obj [])) "" [] [] "u1" "t1").2 =
      .ok { base := [], iodag := dagAppend (buildDag "u0" n0w) "u1" n1w }) ∧
    n1w.action = "update_package" ∧ ("update_package" : String) ≠ "update" :=
  ⟨rfl, rfl, by decide, rfl, rfl, by decide⟩

/-- C9 as amended: the action field of the stage node created by
`build_package` equals `"build_package"` (the source default of
`create_node`), and the action field of the node appended by
`update_package` equals `"update_package"`. -/
theorem c9_amended_actions :
    (∀ (E : Env) (resources : List String) (annotations : List AnnotArg)
        (views : List ViewArg) (node_metadata dag_metadata : MetaArg)
        (profile : String) (basePkg : List (String × J))
        (nodeUuid now : String) (tr : List WriteOp) (doc : PkgDoc),
      build_package E resources annotations views node_metadata dag_metadata
          profile basePkg nodeUuid now = (tr, .ok doc) →
      ∃ node, getKey nodeUuid doc.iodag.nodes = some node ∧
        node.action = "build_package") ∧
    (∀ (E : Env) (existing : String) (resources : List String)
        (annotations : List AnnotArg) (views : List ViewArg)
        (metadata : MetaArg) (profile : String) (kwargs : List (String × J))
        (basePkg : List (String × J)) (nodeUuid now : String)
        (tr : List WriteOp) (doc : PkgDoc),
      update_package E existing resources annotations views metadata profile
          kwargs basePkg nodeUuid now = (tr, .ok doc) →
      ∃ node, getKey nodeUuid doc.iodag.nodes = some node ∧
        node.action = "update_package") := by
  constructor
  · intro E resources annotations views node_metadata dag_metadata profile
      basePkg nodeUuid now tr doc h
    obtain ⟨node, hdoc, ha, _, _, _⟩ :=
      build_ok_shape _ _ _ _ _ _ _ _ _ _ tr doc h
    refine ⟨node, ?_, ha⟩
    rw [hdoc]
    exact getKey_singleton _ _
  · intro E existing resources annotations views metadata profile kwargs
      basePkg nodeUuid now tr doc h
    obtain ⟨dag0, node, _, hdoc, ha, _, _, _⟩ :=
      update_ok_shape _ _ _ _ _ _ _ _ _ _ _ tr doc h
    refine ⟨node, ?_, ha⟩
    rw [hdoc]
    exact getKey_dictInsert_self _ _ _

/-- Witness for C9 as amended: the concrete build and update runs, whose
stored nodes carry actions `"build_package"` and `"update_package"`. -/
theorem c9_witness :
    (build_package E0 [] [] [] (.dict (J.obj [])) (.dict (J.obj [])) "" []
        "u0" "t0" =
      ([WriteOp.writeMetaDirect "datapackage.json"
          { base := [], iodag := buildDag "u0" n0w }],
       .ok { base := [], iodag := buildDag "u0" n0w })) ∧
    (∃ node, getKey "u0" (buildDag "u0" n0w).nodes = some node ∧
      node.action = "build_package") ∧
    (update_package { E0 with docs := [("datapackage.json", buildDag "u0" n0w)] }
        "datapackage.json" [] [] [] (.dict (J.obj [])) "" [] [] "u1" "t1" =
      ([WriteOp.writeMetaDirect "datapackage.json"
          { base := [], iodag := dagAppend (buildDag "u0" n0w) "u1" n1w }],
       .ok { base := [], iodag := dagAppend (buildDag "u0" n0w) "u1" n1w })) ∧
    (∃ node, getKey "u1" (dagAppend (buildDag "u0" n0w) "u1" n1w).nodes
        = some node ∧ node.action = "update_package") := by
  refine ⟨rfl, ?_, rfl, ?_⟩
  · exact c9_amended_actions.1 E0 [] [] [] (.dict (J.obj []))
      (.dict (J.obj [])) "" [] "u0" "t0" _
      { base := [], iodag := buildDag "u0" n0w } rfl
  · exact c9_amended_actions.2
      { E0 with docs := [("datapackage.json", buildDag "u0" n0w)] }
      "datapackage.json" [] [] [] (.dict (J.obj [])) "" [] [] "u1" "t1" _
      { base := [], iodag := dagAppend (buildDag "u0" n0w) "u1" n1w } rfl

/-- C10: the output of `update_package` (write trace and result alike) is
identical for any two values of the `kwargs` argument, and the output of
`build_package` is identical for any two `dag_metadata` arguments that both
parse to a dict — DAG-level metadata supplied through these parameters is
never persisted. -/
theorem c10_dag_level_metadata_never_persisted :
    (∀ (E : Env) (existing : String) (resources : List String)
        (annotations : List AnnotArg) (views : List ViewArg)
        (metadata : MetaArg) (profile : String)
        (kwargs1 kwargs2 : List (String × J))
        (basePkg : List (String × J)) (nodeUuid now : String),
      update_package E existing resources annotations views metadata profile
          kwargs1 basePkg nodeUuid now =
        update_package E existing resources annotations views metadata
          profile kwargs2 basePkg nodeUuid now) ∧
    (∀ (E : Env) (resources : List String) (annotations : List AnnotArg)
        (views : List ViewArg) (node_metadata : MetaArg)
        (dm1 dm2 : MetaArg) (profile : String)
        (basePkg : List (String × J)) (nodeUuid now : String) (m1 m2 : J),
      parse_metadata E dm1 = .ok m1 →
      parse_metadata E dm2 = .ok m2 →
      build_package E resources annotations views node_metadata dm1 profile
          basePkg nodeUuid now =
        build_package E resources annotations views node_metadata dm2
          profile basePkg nodeUuid now) := by
  constructor
  · intro E existing resources annotations views metadata profile kwargs1
      kwargs2 basePkg nodeUuid now
    rfl
  · intro E resources annotations views node_metadata dm1 dm2 profile basePkg
      nodeUuid now m1 m2 h1 h2
    simp only [build_package, h1, h2]

/-- Witness for C10: two concrete build calls differing only in
`dag_metadata` (both parsing to a dict) produce identical outputs, and two
concrete update calls differing only in `kwargs` produce identical
outputs. -/
theorem c10_witness :
    (parse_metadata E0 (.dict (J.obj [])) = .ok (J.obj []) ∧
      parse_metadata E0 (.dict (J.obj [("extra", J.str "x")]))
        = .ok (J.obj [("extra", J.str "x")])) ∧
    build_package E0 [] [] [] (.dict (J.obj [])) (.dict (J.obj [])) "" []
        "u0" "t0" =
      build_package E0 [] [] [] (.dict (J.obj []))
        (.dict (J.obj [("extra", J.str "x")])) "" [] "u0" "t0" ∧
    update_package Eupd "datapackage.json" [] [] [] (.dict (J.obj [])) ""
        [("note", J.str "y")] [] "u1" "t1" =
      update_package Eupd "datapackage.json" [] [] [] (.dict (J.obj [])) ""
        [] [] "u1" "t1" := by
  refine ⟨⟨rfl, rfl⟩, ?_, ?_⟩
  · exact c10_dag_level_metadata_never_persisted.2 E0 [] [] []
      (.dict (J.obj [])) (.dict (J.obj []))
      (.dict (J.obj [("extra", J.str "x")])) "" [] "u0" "t0"
      (J.obj []) (J.obj [("extra", J.str "x")]) rfl rfl
  · exact c10_dag_level_metadata_never_persisted.1 Eupd "datapackage.json"
      [] [] [] (.dict (J.obj [])) "" [("note", J.str "y")] [] [] "u1" "t1"

end Eco
